import Mathlib

/-!
Verification of the Resolwe excerpt (executor bootstrap, purged-location
migration, relation serializer, query-parameter validation) against its
natural-language specification.  Each piece of Python source is shallowly
embedded as an executable Lean definition, and the spec's claims are stated
and proved (or refuted) about those definitions.
-/

namespace Resolwe

/-! ## Executor bootstrap (`resolwe/flow/executors/__main__.py`)

The bootstrap is modelled as a deterministic function from an environment
(command-line arguments, importability of modules, presence of the
`FlowExecutor` attribute, the shared settings mapping, the script file
content, and which external calls raise) to a pair of an event trace and an
outcome.  Events record each externally visible step in the order the Python
code performs it.  -/

/-- Externally visible steps of the bootstrap, in the order they can occur. -/
inductive Event where
  /-- `configure_logging(logging_future_list)` at the top of the main block. -/
  | configureLogging
  /-- `await manager_commands.init()` inside `_sequential`. -/
  | managerInit
  /-- `parser.parse_args()` inside `run_executor`. -/
  | parseArgsCall
  /-- `import_module(module_name, __package__)`: the resolved module name and
      the anchor package. -/
  | importMod (name : String) (pkg : String)
  /-- `getattr(module, class_name)()`: the class name and the number of
      constructor arguments. -/
  | instantiate (cls : String) (numArgs : Nat)
  /-- `open(ExecutorFiles.PROCESS_SCRIPT, "rt")` followed by `.read()`. -/
  | readScript (path : String)
  /-- `executor.run(DATA["id"], script_file.read())` begins: the process
      identifier and the script text actually passed. -/
  | runStart (procId : String) (script : String)
  /-- The executor's `run` coroutine returned without raising. -/
  | runComplete
  /-- `loop.run_until_complete(asyncio.gather(*logging_future_list))`. -/
  | loggingDrain
  /-- `await manager_commands.deinit()`. -/
  | managerDeinit
  /-- `loop.run_until_complete(asyncio.gather(*pending))` over all tasks. -/
  | finalDrain
deriving DecidableEq, Repr

/-- Errors the bootstrap can raise, by Python exception class. -/
inductive Err where
  | importError
  | attributeError
  | osError
  | keyError
  | initError
  | execError
deriving DecidableEq, Repr

/-- How a single invocation of the bootstrap process ends. -/
inductive Outcome where
  /-- All steps completed; the interpreter exits with status 0. -/
  | ok
  /-- `argparse` called `sys.exit` with the given status. -/
  | exited (code : Nat)
  /-- An exception propagated uncaught out of the main block. -/
  | raised (e : Err)
deriving DecidableEq, Repr

/-- Modelled from the spec: the fixed path of the process script file
(`ExecutorFiles.PROCESS_SCRIPT`, defined in `protocol.py`, which is not part
of the excerpt; the spec calls it "a process script file at a fixed path"). -/
def PROCESS_SCRIPT : String := "process_script"

/-- Modelled from the spec: the fixed key under which the shared settings
mapping provides the process identifier (`DATA["id"]`; `global_settings.py`
is not part of the excerpt). -/
def DATA_ID_KEY : String := "id"

/-- The anchor package for relative imports: `__package__` of the
`executors` package, per the module docstring (`python -m executors .docker`). -/
def packageName : String := "executors"

/-- The fixed class name retrieved from the resolved module. -/
def className : String := "FlowExecutor"

/-- Environment of one bootstrap invocation: everything outside the excerpt
that the control flow depends on. -/
structure Env where
  /-- Positional command-line arguments after the program name. -/
  args : List String
  /-- Whether `import_module n __package__` succeeds for a given name. -/
  importOk : String → Bool
  /-- Whether the resolved module has a `FlowExecutor` attribute. -/
  hasFlowExecutor : Bool
  /-- Whether `manager_commands.init()` raises. -/
  initRaises : Bool
  /-- Whether opening/reading the process script raises `OSError`. -/
  readRaises : Bool
  /-- Whether the executor's `run` coroutine raises. -/
  runRaises : Bool
  /-- The shared settings mapping `DATA`. -/
  data : String → Option String
  /-- The text content of the process script file. -/
  scriptContent : String

/-- `argparse` with a single required positional: succeeds exactly when one
positional argument is supplied, otherwise errors and exits with status 2. -/
def parseArgs (args : List String) : Option String :=
  match args with
  | [m] => some m
  | _ => none

/-- Shallow embedding of `run_executor` (lines 39–53): parse the argument,
resolve `<module>.run`, fetch `FlowExecutor`, construct it with no
arguments, read the process script, and await `run(DATA["id"], script)`. -/
def run_executor (env : Env) : List Event × Outcome :=
  match parseArgs env.args with
  | none => ([Event.parseArgsCall], Outcome.exited 2)
  | some m =>
    let moduleName := m ++ ".run"
    if ¬ env.importOk moduleName then
      ([Event.parseArgsCall, Event.importMod moduleName packageName],
       Outcome.raised Err.importError)
    else if ¬ env.hasFlowExecutor then
      ([Event.parseArgsCall, Event.importMod moduleName packageName],
       Outcome.raised Err.attributeError)
    else if env.readRaises then
      ([Event.parseArgsCall, Event.importMod moduleName packageName,
        Event.instantiate className 0, Event.readScript PROCESS_SCRIPT],
       Outcome.raised Err.osError)
    else
      match env.data DATA_ID_KEY with
      | none =>
        ([Event.parseArgsCall, Event.importMod moduleName packageName,
          Event.instantiate className 0, Event.readScript PROCESS_SCRIPT],
         Outcome.raised Err.keyError)
      | some procId =>
        if env.runRaises then
          ([Event.parseArgsCall, Event.importMod moduleName packageName,
            Event.instantiate className 0, Event.readScript PROCESS_SCRIPT,
            Event.runStart procId env.scriptContent],
           Outcome.raised Err.execError)
        else
          ([Event.parseArgsCall, Event.importMod moduleName packageName,
            Event.instantiate className 0, Event.readScript PROCESS_SCRIPT,
            Event.runStart procId env.scriptContent, Event.runComplete],
           Outcome.ok)

/-- Shallow embedding of `_sequential` (lines 60–63): `await
manager_commands.init()` then `await run_executor()`. -/
def sequential (env : Env) : List Event × Outcome :=
  if env.initRaises then
    ([Event.managerInit], Outcome.raised Err.initError)
  else
    match run_executor env with
    | (t, o) => (Event.managerInit :: t, o)

/-- Shallow embedding of the `__main__` block (lines 56–84): configure
logging, run `_sequential` to completion, then — only if it did not raise or
exit — drain the logging futures, deinitialize the manager connection, and
drain any remaining tasks.  An exception or `sys.exit` inside
`run_until_complete` propagates, so none of the later statements run. -/
def main (env : Env) : List Event × Outcome :=
  match sequential env with
  | (t, Outcome.ok) =>
    (Event.configureLogging :: t ++
      [Event.loggingDrain, Event.managerDeinit, Event.finalDrain],
     Outcome.ok)
  | (t, o) => (Event.configureLogging :: t, o)

/-- Exit status of the interpreter for a given outcome: 0 on success, the
`sys.exit` status on an argparse error, 1 for an uncaught exception. -/
def exitCode : Outcome → Nat
  | Outcome.ok => 0
  | Outcome.exited c => c
  | Outcome.raised _ => 1

/-- Some event satisfying `p` strictly precedes some event satisfying `q`. -/
def occursBefore (t : List Event) (p q : Event → Bool) : Prop :=
  ∃ l₁ a l₂ b l₃, t = l₁ ++ a :: (l₂ ++ b :: l₃) ∧ p a = true ∧ q b = true

/-- Number of events in the trace satisfying `p`. -/
def countE (t : List Event) (p : Event → Bool) : Nat :=
  t.countP p

def Event.isManagerInit : Event → Bool
  | Event.managerInit => true
  | _ => false

def Event.isManagerDeinit : Event → Bool
  | Event.managerDeinit => true
  | _ => false

def Event.isRunStart : Event → Bool
  | Event.runStart _ _ => true
  | _ => false

def Event.isRunComplete : Event → Bool
  | Event.runComplete => true
  | _ => false

def Event.isLoggingDrain : Event → Bool
  | Event.loggingDrain => true
  | _ => false

def Event.isFinalDrain : Event → Bool
  | Event.finalDrain => true
  | _ => false

def Event.isImportMod : Event → Bool
  | Event.importMod _ _ => true
  | _ => false

def Event.isReadScript : Event → Bool
  | Event.readScript _ => true
  | _ => false

/-- If `run_executor` succeeds, its trace is exactly the six-step sequence:
argument parse, import of `<module>.run`, zero-argument construction of
`FlowExecutor`, script read at the fixed path, run start with the settings
identifier and the verbatim script content, run completion. -/
lemma run_executor_ok_shape (env : Env) (h : (run_executor env).2 = Outcome.ok) :
    ∃ m procId, parseArgs env.args = some m ∧
      env.data DATA_ID_KEY = some procId ∧
      (run_executor env).1 =
        [Event.parseArgsCall, Event.importMod (m ++ ".run") packageName,
         Event.instantiate className 0, Event.readScript PROCESS_SCRIPT,
         Event.runStart procId env.scriptContent, Event.runComplete] := by
  unfold run_executor at h ⊢
  cases hargs : parseArgs env.args with
  | none => simp [hargs] at h
  | some m =>
    simp only [hargs] at h ⊢
    by_cases himp : env.importOk (m ++ ".run") <;> simp [himp] at h ⊢
    by_cases hcls : env.hasFlowExecutor <;> simp [hcls] at h ⊢
    by_cases hread : env.readRaises <;> simp [hread] at h ⊢
    cases hdata : env.data DATA_ID_KEY with
    | none => simp [hdata] at h
    | some procId =>
      simp only [hdata] at h ⊢
      by_cases hrun : env.runRaises <;> simp [hrun] at h ⊢

/-- If the whole bootstrap succeeds, its trace is exactly the eleven-step
sequence in source order. -/
lemma main_ok_shape (env : Env) (h : (main env).2 = Outcome.ok) :
    ∃ m procId, parseArgs env.args = some m ∧
      env.data DATA_ID_KEY = some procId ∧
      (main env).1 =
        [Event.configureLogging, Event.managerInit, Event.parseArgsCall,
         Event.importMod (m ++ ".run") packageName,
         Event.instantiate className 0, Event.readScript PROCESS_SCRIPT,
         Event.runStart procId env.scriptContent, Event.runComplete,
         Event.loggingDrain, Event.managerDeinit, Event.finalDrain] := by
  by_cases hinit : env.initRaises
  · exfalso
    unfold main sequential at h
    simp [hinit] at h
  · have hseq : sequential env =
        (Event.managerInit :: (run_executor env).1, (run_executor env).2) := by
      unfold sequential
      simp [hinit]
    cases hrun : (run_executor env).2 with
    | ok =>
      obtain ⟨m, procId, hargs, hdata, hshape⟩ := run_executor_ok_shape env hrun
      refine ⟨m, procId, hargs, hdata, ?_⟩
      unfold main
      rw [hseq, hrun, hshape]
      simp
    | exited c =>
      exfalso
      unfold main at h
      rw [hseq, hrun] at h
      simp at h
    | raised e =>
      exfalso
      unfold main at h
      rw [hseq, hrun] at h
      simp at h

/-- Count bounds on every possible `run_executor` trace: it never contains a
drain, deinit, or init event, and performs each of its own steps at most
once (no retry). -/
lemma run_executor_counts (env : Env) :
    countE (run_executor env).1 Event.isLoggingDrain = 0 ∧
    countE (run_executor env).1 Event.isManagerDeinit = 0 ∧
    countE (run_executor env).1 Event.isFinalDrain = 0 ∧
    countE (run_executor env).1 Event.isManagerInit = 0 ∧
    countE (run_executor env).1 Event.isImportMod ≤ 1 ∧
    countE (run_executor env).1 Event.isReadScript ≤ 1 ∧
    countE (run_executor env).1 Event.isRunStart ≤ 1 := by
  unfold run_executor
  cases parseArgs env.args with
  | none =>
    simp [countE, Event.isLoggingDrain, Event.isManagerDeinit, Event.isFinalDrain,
      Event.isManagerInit, Event.isImportMod, Event.isReadScript, Event.isRunStart]
  | some m =>
    by_cases himp : env.importOk (m ++ ".run") <;>
    by_cases hcls : env.hasFlowExecutor <;>
    by_cases hread : env.readRaises <;>
    cases hdata : env.data DATA_ID_KEY <;>
    by_cases hrun : env.runRaises <;>
    simp [himp, hcls, hread, hdata, hrun, countE, Event.isLoggingDrain,
      Event.isManagerDeinit, Event.isFinalDrain, Event.isManagerInit,
      Event.isImportMod, Event.isReadScript, Event.isRunStart]

/-- The same count bounds for `_sequential`, which adds exactly one
manager-init event in front. -/
lemma sequential_counts (env : Env) :
    countE (sequential env).1 Event.isLoggingDrain = 0 ∧
    countE (sequential env).1 Event.isManagerDeinit = 0 ∧
    countE (sequential env).1 Event.isFinalDrain = 0 ∧
    countE (sequential env).1 Event.isManagerInit ≤ 1 ∧
    countE (sequential env).1 Event.isImportMod ≤ 1 ∧
    countE (sequential env).1 Event.isReadScript ≤ 1 ∧
    countE (sequential env).1 Event.isRunStart ≤ 1 := by
  obtain ⟨h1, h2, h3, h4, h5, h6, h7⟩ := run_executor_counts env
  unfold sequential
  by_cases hinit : env.initRaises
  · simp [hinit, countE, Event.isLoggingDrain, Event.isManagerDeinit, Event.isFinalDrain,
      Event.isManagerInit, Event.isImportMod, Event.isReadScript, Event.isRunStart]
  · simp only [hinit]
    cases hre : run_executor env with
    | mk t o =>
      rw [hre] at h1 h2 h3 h4 h5 h6 h7
      simp only [Bool.false_eq_true, if_false]
      simp [countE, List.countP_cons, Event.isLoggingDrain, Event.isManagerDeinit,
        Event.isFinalDrain, Event.isManagerInit, Event.isImportMod, Event.isReadScript,
        Event.isRunStart] at h1 h2 h3 h4 h5 h6 h7 ⊢
      exact ⟨h1, h2, h3, h4, h5, h6, h7⟩

/-- When the bootstrap ends by exception or `sys.exit`, the trace is just the
logging setup followed by whatever `_sequential` performed: none of the
teardown statements run. -/
lemma main_notok_trace (env : Env) (h : (main env).2 ≠ Outcome.ok) :
    (main env).1 = Event.configureLogging :: (sequential env).1 := by
  unfold main at h ⊢
  cases hseq : sequential env with
  | mk t o =>
    cases o with
    | ok => rw [hseq] at h; simp at h
    | exited c => rfl
    | raised e => rfl

/-! ## Witness environments: concrete invocations used to instantiate the
theorems below.  Constant-function fields keep kernel evaluation cheap. -/

/-- A fully successful invocation: one module argument, every import
resolves, the class exists, nothing raises. -/
def envOk : Env :=
  { args := ["docker"]
    importOk := fun _ => true
    hasFlowExecutor := true
    initRaises := false
    readRaises := false
    runRaises := false
    data := fun _ => some "42"
    scriptContent := "echo hello" }

/-- An invocation whose module name does not resolve to an importable
module; everything else succeeds. -/
def envBadModule : Env :=
  { args := ["nosuch"]
    importOk := fun _ => false
    hasFlowExecutor := false
    initRaises := false
    readRaises := false
    runRaises := false
    data := fun _ => some "42"
    scriptContent := "" }

/-- An invocation where the executor's `run` coroutine raises; everything
before it succeeds. -/
def envRunFails : Env :=
  { args := ["docker"]
    importOk := fun _ => true
    hasFlowExecutor := true
    initRaises := false
    readRaises := false
    runRaises := true
    data := fun _ => some "42"
    scriptContent := "boom" }

/-- An invocation with no command-line arguments at all. -/
def envNoArgs : Env :=
  { args := []
    importOk := fun _ => true
    hasFlowExecutor := true
    initRaises := false
    readRaises := false
    runRaises := false
    data := fun _ => some "42"
    scriptContent := "" }

/-! ## Claims about the bootstrap -/

/-- The bootstrap's outcome is exactly `_sequential`'s outcome: the teardown
statements never change how the process ends. -/
lemma main_outcome (env : Env) : (main env).2 = (sequential env).2 := by
  unfold main
  cases hseq : sequential env with
  | mk t o => cases o <;> rfl

/-- When manager-init does not raise, `_sequential`'s outcome is
`run_executor`'s outcome. -/
lemma sequential_outcome (env : Env) (hinit : env.initRaises = false) :
    (sequential env).2 = (run_executor env).2 := by
  unfold sequential
  cases hre : run_executor env with
  | mk t o => simp [hinit]

/-- When manager-init does not raise, `_sequential`'s trace is the init
event followed by `run_executor`'s trace. -/
lemma sequential_trace (env : Env) (hinit : env.initRaises = false) :
    (sequential env).1 = Event.managerInit :: (run_executor env).1 := by
  unfold sequential
  cases hre : run_executor env with
  | mk t o => simp [hinit]

/-- If `run_executor` raised the execution error, it got through the
parse, the module import, construction and the script read, started the
run, and the run did not complete. -/
lemma run_executor_exec_raised_shape (env : Env)
    (h : (run_executor env).2 = Outcome.raised Err.execError) :
    ∃ m procId,
      (run_executor env).1 =
        [Event.parseArgsCall, Event.importMod (m ++ ".run") packageName,
         Event.instantiate className 0, Event.readScript PROCESS_SCRIPT,
         Event.runStart procId env.scriptContent] := by
  unfold run_executor at h ⊢
  cases hargs : parseArgs env.args with
  | none => rw [hargs] at h; simp at h
  | some m =>
    simp only [hargs] at h ⊢
    by_cases himp : env.importOk (m ++ ".run") <;> simp [himp] at h ⊢
    by_cases hcls : env.hasFlowExecutor <;> simp [hcls] at h ⊢
    by_cases hread : env.readRaises <;> simp [hread] at h ⊢
    cases hdata : env.data DATA_ID_KEY with
    | none => simp [hdata] at h
    | some procId =>
      simp only [hdata] at h ⊢
      by_cases hrun : env.runRaises <;> simp [hrun] at h ⊢
      exact ⟨m, rfl⟩

/-- C1: on every successful invocation, manager-init happens exactly once
and before the executor's run routine starts, the logging drain happens
after run completes, and manager-deinit happens exactly once, after both run
completion and the logging drain. -/
theorem bootstrap_lifecycle_order (env : Env) (h : (main env).2 = Outcome.ok) :
    countE (main env).1 Event.isManagerInit = 1 ∧
    occursBefore (main env).1 Event.isManagerInit Event.isRunStart ∧
    occursBefore (main env).1 Event.isRunComplete Event.isLoggingDrain ∧
    countE (main env).1 Event.isManagerDeinit = 1 ∧
    occursBefore (main env).1 Event.isRunComplete Event.isManagerDeinit ∧
    occursBefore (main env).1 Event.isLoggingDrain Event.isManagerDeinit := by
  obtain ⟨m, procId, hargs, hdata, hshape⟩ := main_ok_shape env h
  rw [hshape]
  refine ⟨?_, ?_, ?_, ?_, ?_, ?_⟩
  · simp [countE, Event.isManagerInit]
  · exact ⟨[Event.configureLogging], Event.managerInit,
      [Event.parseArgsCall, Event.importMod (m ++ ".run") packageName,
       Event.instantiate className 0, Event.readScript PROCESS_SCRIPT],
      Event.runStart procId env.scriptContent,
      [Event.runComplete, Event.loggingDrain, Event.managerDeinit, Event.finalDrain],
      rfl, rfl, rfl⟩
  · exact ⟨[Event.configureLogging, Event.managerInit, Event.parseArgsCall,
       Event.importMod (m ++ ".run") packageName, Event.instantiate className 0,
       Event.readScript PROCESS_SCRIPT, Event.runStart procId env.scriptContent],
      Event.runComplete, [], Event.loggingDrain,
      [Event.managerDeinit, Event.finalDrain], rfl, rfl, rfl⟩
  · simp [countE, Event.isManagerDeinit]
  · exact ⟨[Event.configureLogging, Event.managerInit, Event.parseArgsCall,
       Event.importMod (m ++ ".run") packageName, Event.instantiate className 0,
       Event.readScript PROCESS_SCRIPT, Event.runStart procId env.scriptContent],
      Event.runComplete, [Event.loggingDrain], Event.managerDeinit,
      [Event.finalDrain], rfl, rfl, rfl⟩
  · exact ⟨[Event.configureLogging, Event.managerInit, Event.parseArgsCall,
       Event.importMod (m ++ ".run") packageName, Event.instantiate className 0,
       Event.readScript PROCESS_SCRIPT, Event.runStart procId env.scriptContent,
       Event.runComplete], Event.loggingDrain, [], Event.managerDeinit,
      [Event.finalDrain], rfl, rfl, rfl⟩

/-- Witness for C1: the guarantees hold on the concrete successful
invocation `envOk`. -/
theorem bootstrap_lifecycle_order_witness :
    (main envOk).2 = Outcome.ok ∧
    (countE (main envOk).1 Event.isManagerInit = 1 ∧
     occursBefore (main envOk).1 Event.isManagerInit Event.isRunStart ∧
     occursBefore (main envOk).1 Event.isRunComplete Event.isLoggingDrain ∧
     countE (main envOk).1 Event.isManagerDeinit = 1 ∧
     occursBefore (main envOk).1 Event.isRunComplete Event.isManagerDeinit ∧
     occursBefore (main envOk).1 Event.isLoggingDrain Event.isManagerDeinit) :=
  ⟨rfl, bootstrap_lifecycle_order envOk rfl⟩

/-- Events satisfying `p` never occur in `t`. -/
lemma countE_cons_of_false {p : Event → Bool} {a : Event} {t : List Event}
    (ha : p a = false) : countE (a :: t) p = countE t p := by
  simp [countE, List.countP_cons, ha]

/-- Counterexample to C2: on the concrete invocation `envBadModule`, whose
module name cannot be imported, the bootstrap does raise the resolution
error, but one manager-init call has already happened, and it happened
before the failing import — the sequence does not fail before manager-init. -/
theorem invalid_module_inits_first_cex :
    (main envBadModule).2 = Outcome.raised Err.importError ∧
    countE (main envBadModule).1 Event.isManagerInit = 1 ∧
    occursBefore (main envBadModule).1 Event.isManagerInit Event.isImportMod :=
  ⟨rfl, rfl,
   ⟨[Event.configureLogging], Event.managerInit, [Event.parseArgsCall],
    Event.importMod ("nosuch" ++ ".run") packageName, [], rfl, rfl, rfl⟩⟩

/-- C2 amended: when the supplied module or its `FlowExecutor` class cannot
be resolved (and manager-init itself succeeds), the bootstrap fails with the
resolution error *after* exactly one manager-init call — not before it — and
before the run routine starts; no deinit or logging drain ever happens. -/
theorem resolution_failure_after_init (env : Env) (m : String)
    (hargs : parseArgs env.args = some m)
    (hinit : env.initRaises = false)
    (hres : env.importOk (m ++ ".run") = false ∨ env.hasFlowExecutor = false) :
    ((main env).2 = Outcome.raised Err.importError ∨
     (main env).2 = Outcome.raised Err.attributeError) ∧
    countE (main env).1 Event.isManagerInit = 1 ∧
    countE (main env).1 Event.isRunStart = 0 ∧
    countE (main env).1 Event.isManagerDeinit = 0 ∧
    countE (main env).1 Event.isLoggingDrain = 0 ∧
    occursBefore (main env).1 Event.isManagerInit Event.isImportMod := by
  have hre : (run_executor env).1 =
      [Event.parseArgsCall, Event.importMod (m ++ ".run") packageName] ∧
      ((run_executor env).2 = Outcome.raised Err.importError ∨
       (run_executor env).2 = Outcome.raised Err.attributeError) := by
    unfold run_executor
    simp only [hargs]
    rcases hres with h | h
    · simp [h]
    · by_cases himp : env.importOk (m ++ ".run") <;> simp [himp, h]
  obtain ⟨ht, ho⟩ := hre
  have hout : (main env).2 = (run_executor env).2 :=
    (main_outcome env).trans (sequential_outcome env hinit)
  have hnotok : (main env).2 ≠ Outcome.ok := by
    rw [hout]; rcases ho with h | h <;> rw [h] <;> simp
  have htr : (main env).1 =
      [Event.configureLogging, Event.managerInit, Event.parseArgsCall,
       Event.importMod (m ++ ".run") packageName] := by
    rw [main_notok_trace env hnotok, sequential_trace env hinit, ht]
  refine ⟨by rw [hout]; exact ho, ?_, ?_, ?_, ?_, ?_⟩
  · rw [htr]; rfl
  · rw [htr]; rfl
  · rw [htr]; rfl
  · rw [htr]; rfl
  · rw [htr]
    exact ⟨[Event.configureLogging], Event.managerInit, [Event.parseArgsCall],
      Event.importMod (m ++ ".run") packageName, [], rfl, rfl, rfl⟩

/-- Witness for the amended C2, at the concrete invocation `envBadModule`. -/
theorem resolution_failure_after_init_witness :
    (parseArgs envBadModule.args = some "nosuch" ∧
     envBadModule.initRaises = false ∧
     envBadModule.importOk ("nosuch" ++ ".run") = false) ∧
    (((main envBadModule).2 = Outcome.raised Err.importError ∨
      (main envBadModule).2 = Outcome.raised Err.attributeError) ∧
     countE (main envBadModule).1 Event.isManagerInit = 1 ∧
     countE (main envBadModule).1 Event.isRunStart = 0 ∧
     countE (main envBadModule).1 Event.isManagerDeinit = 0 ∧
     countE (main envBadModule).1 Event.isLoggingDrain = 0 ∧
     occursBefore (main envBadModule).1 Event.isManagerInit Event.isImportMod) :=
  ⟨⟨rfl, rfl, rfl⟩,
   resolution_failure_after_init envBadModule "nosuch" rfl rfl (Or.inl rfl)⟩

/-- C3: any exception during manager-init, resolution, script read, or the
run routine aborts the bootstrap — the exception is the process outcome (no
recovery), no step is retried (each occurs at most once), and the logging
drain, manager-deinit and final drain are never executed. -/
theorem exception_aborts_without_teardown (env : Env) (e : Err)
    (h : (main env).2 = Outcome.raised e) :
    countE (main env).1 Event.isLoggingDrain = 0 ∧
    countE (main env).1 Event.isManagerDeinit = 0 ∧
    countE (main env).1 Event.isFinalDrain = 0 ∧
    countE (main env).1 Event.isManagerInit ≤ 1 ∧
    countE (main env).1 Event.isImportMod ≤ 1 ∧
    countE (main env).1 Event.isReadScript ≤ 1 ∧
    countE (main env).1 Event.isRunStart ≤ 1 := by
  have hnotok : (main env).2 ≠ Outcome.ok := by rw [h]; simp
  have htr := main_notok_trace env hnotok
  obtain ⟨s1, s2, s3, s4, s5, s6, s7⟩ := sequential_counts env
  rw [htr, countE_cons_of_false rfl] at *
  exact ⟨s1, s2, s3, s4, s5, s6, s7⟩

/-- Witness for C3: the run routine of `envRunFails` raises, and the
bootstrap aborts without any teardown step. -/
theorem exception_aborts_without_teardown_witness :
    (main envRunFails).2 = Outcome.raised Err.execError ∧
    (countE (main envRunFails).1 Event.isLoggingDrain = 0 ∧
     countE (main envRunFails).1 Event.isManagerDeinit = 0 ∧
     countE (main envRunFails).1 Event.isFinalDrain = 0 ∧
     countE (main envRunFails).1 Event.isManagerInit ≤ 1 ∧
     countE (main envRunFails).1 Event.isImportMod ≤ 1 ∧
     countE (main envRunFails).1 Event.isReadScript ≤ 1 ∧
     countE (main envRunFails).1 Event.isRunStart ≤ 1) :=
  ⟨rfl, exception_aborts_without_teardown envRunFails Err.execError rfl⟩

/-- C4: when the run routine fails, manager-deinit is never invoked at all —
in particular never before the run completes (the run never completes, and
the trace shows the run started exactly once and deinit zero times). -/
theorem no_deinit_before_run_completion_on_failure (env : Env)
    (h : (main env).2 = Outcome.raised Err.execError) :
    countE (main env).1 Event.isManagerDeinit = 0 ∧
    countE (main env).1 Event.isRunStart = 1 ∧
    countE (main env).1 Event.isRunComplete = 0 := by
  have hnotok : (main env).2 ≠ Outcome.ok := by rw [h]; simp
  have hseqo : (sequential env).2 = Outcome.raised Err.execError := by
    rw [← main_outcome env, h]
  have hinit : env.initRaises = false := by
    cases hi : env.initRaises
    · rfl
    · exfalso
      unfold sequential at hseqo
      rw [hi] at hseqo
      simp at hseqo
  have hre2 : (run_executor env).2 = Outcome.raised Err.execError := by
    rw [← sequential_outcome env hinit]; exact hseqo
  obtain ⟨m, procId, hshape⟩ := run_executor_exec_raised_shape env hre2
  have htr : (main env).1 =
      [Event.configureLogging, Event.managerInit, Event.parseArgsCall,
       Event.importMod (m ++ ".run") packageName, Event.instantiate className 0,
       Event.readScript PROCESS_SCRIPT,
       Event.runStart procId env.scriptContent] := by
    rw [main_notok_trace env hnotok, sequential_trace env hinit, hshape]
  rw [htr]
  exact ⟨rfl, rfl, rfl⟩

/-- Witness for C4 at the concrete failing invocation `envRunFails`. -/
theorem no_deinit_before_run_completion_on_failure_witness :
    (main envRunFails).2 = Outcome.raised Err.execError ∧
    (countE (main envRunFails).1 Event.isManagerDeinit = 0 ∧
     countE (main envRunFails).1 Event.isRunStart = 1 ∧
     countE (main envRunFails).1 Event.isRunComplete = 0) :=
  ⟨rfl, no_deinit_before_run_completion_on_failure envRunFails rfl⟩

/-- The bootstrap trace is the logging setup plus `_sequential`'s trace,
with the three teardown events appended exactly on the success path. -/
lemma main_trace_split (env : Env) :
    (main env).1 = Event.configureLogging :: (sequential env).1 ∨
    (main env).1 = Event.configureLogging :: (sequential env).1 ++
      [Event.loggingDrain, Event.managerDeinit, Event.finalDrain] := by
  unfold main
  cases hseq : sequential env with
  | mk t o =>
    cases o with
    | ok => right; rfl
    | exited c => left; rfl
    | raised e => left; rfl

/-- Whenever resolution succeeds (argument parsed, module imported, class
present, init not raising), `run_executor`'s trace begins with the parse,
the import of `<module>.run` anchored at the package, and the zero-argument
construction of `FlowExecutor`. -/
lemma run_executor_resolution_start (env : Env) (m : String)
    (hargs : parseArgs env.args = some m)
    (himp : env.importOk (m ++ ".run") = true)
    (hcls : env.hasFlowExecutor = true) :
    ∃ rest, (run_executor env).1 =
      Event.parseArgsCall :: Event.importMod (m ++ ".run") packageName ::
      Event.instantiate className 0 :: rest := by
  unfold run_executor
  simp only [hargs, himp, hcls]
  by_cases hread : env.readRaises <;> simp [hread]
  cases hdata : env.data DATA_ID_KEY with
  | none => simp
  | some procId => by_cases hrun : env.runRaises <;> simp [hrun]

/-- C5: for a supplied module argument `m` that resolves, the executor is
obtained by importing the module named `m ++ ".run"` relative to the
executors package, taking its attribute named `FlowExecutor`, and calling it
with zero constructor arguments; the import happens exactly once. -/
theorem executor_resolution_scheme (env : Env) (m : String)
    (hargs : parseArgs env.args = some m)
    (hinit : env.initRaises = false)
    (himp : env.importOk (m ++ ".run") = true)
    (hcls : env.hasFlowExecutor = true) :
    className = "FlowExecutor" ∧
    Event.importMod (m ++ ".run") packageName ∈ (main env).1 ∧
    Event.instantiate className 0 ∈ (main env).1 ∧
    countE (main env).1 Event.isImportMod = 1 := by
  obtain ⟨rest, hshape⟩ := run_executor_resolution_start env m hargs himp hcls
  have himportcnt : countE (run_executor env).1 Event.isImportMod ≤ 1 :=
    (run_executor_counts env).2.2.2.2.1
  have hmem : Event.importMod (m ++ ".run") packageName ∈ (run_executor env).1 := by
    rw [hshape]; simp
  have hmem2 : Event.instantiate className 0 ∈ (run_executor env).1 := by
    rw [hshape]; simp
  have hcnt : countE (run_executor env).1 Event.isImportMod = 1 := by
    refine le_antisymm himportcnt ?_
    have : Event.isImportMod (Event.importMod (m ++ ".run") packageName) = true := rfl
    calc 1 = countE [Event.importMod (m ++ ".run") packageName] Event.isImportMod := rfl
    _ ≤ countE (run_executor env).1 Event.isImportMod := by
        rw [hshape]
        simp [countE, List.countP_cons, Event.isImportMod]
  have hsplit := main_trace_split env
  have hst := sequential_trace env hinit
  refine ⟨rfl, ?_, ?_, ?_⟩
  · rcases hsplit with hm | hm <;> rw [hm, hst] <;> simp [hmem]
  · rcases hsplit with hm | hm <;> rw [hm, hst] <;> simp [hmem2]
  · rcases hsplit with hm | hm <;>
      rw [hm, hst] <;>
      simp [countE, List.countP_cons, List.countP_append, Event.isImportMod] <;>
      simpa [countE] using hcnt

/-- Witness for C5 at the concrete successful invocation `envOk`. -/
theorem executor_resolution_scheme_witness :
    (parseArgs envOk.args = some "docker" ∧
     envOk.initRaises = false ∧
     envOk.importOk ("docker" ++ ".run") = true ∧
     envOk.hasFlowExecutor = true) ∧
    (className = "FlowExecutor" ∧
     Event.importMod ("docker" ++ ".run") packageName ∈ (main envOk).1 ∧
     Event.instantiate className 0 ∈ (main envOk).1 ∧
     countE (main envOk).1 Event.isImportMod = 1) :=
  ⟨⟨rfl, rfl, rfl, rfl⟩, executor_resolution_scheme envOk "docker" rfl rfl rfl rfl⟩

/-- Whenever the bootstrap reaches the script read without error, the trace
continues with the read at the fixed path immediately followed by the run
start carrying the settings identifier and the unmodified file content. -/
lemma run_executor_read_run_start (env : Env) (m procId : String)
    (hargs : parseArgs env.args = some m)
    (himp : env.importOk (m ++ ".run") = true)
    (hcls : env.hasFlowExecutor = true)
    (hread : env.readRaises = false)
    (hdata : env.data DATA_ID_KEY = some procId) :
    ∃ rest, (run_executor env).1 =
      [Event.parseArgsCall, Event.importMod (m ++ ".run") packageName,
       Event.instantiate className 0, Event.readScript PROCESS_SCRIPT,
       Event.runStart procId env.scriptContent] ++ rest := by
  unfold run_executor
  simp only [hargs]
  by_cases hrun : env.runRaises <;> simp [himp, hcls, hread, hdata, hrun]

/-- C6: on every invocation that reaches the run step, the process script is
read at the fixed path and its verbatim content — together with the process
identifier stored in the shared settings mapping under the fixed key — is
what the executor's run routine receives; the read precedes the run start. -/
theorem script_passed_verbatim (env : Env) (m procId : String)
    (hargs : parseArgs env.args = some m)
    (hinit : env.initRaises = false)
    (himp : env.importOk (m ++ ".run") = true)
    (hcls : env.hasFlowExecutor = true)
    (hread : env.readRaises = false)
    (hdata : env.data DATA_ID_KEY = some procId) :
    Event.readScript PROCESS_SCRIPT ∈ (main env).1 ∧
    Event.runStart procId env.scriptContent ∈ (main env).1 ∧
    occursBefore (main env).1 Event.isReadScript Event.isRunStart := by
  obtain ⟨rest, hshape⟩ :=
    run_executor_read_run_start env m procId hargs himp hcls hread hdata
  have hst := sequential_trace env hinit
  rcases main_trace_split env with hm | hm
  · rw [hm, hst, hshape]
    refine ⟨by simp, by simp, ?_⟩
    exact ⟨[Event.configureLogging, Event.managerInit, Event.parseArgsCall,
        Event.importMod (m ++ ".run") packageName, Event.instantiate className 0],
      Event.readScript PROCESS_SCRIPT, [],
      Event.runStart procId env.scriptContent, rest, by simp, rfl, rfl⟩
  · rw [hm, hst, hshape]
    refine ⟨by simp, by simp, ?_⟩
    exact ⟨[Event.configureLogging, Event.managerInit, Event.parseArgsCall,
        Event.importMod (m ++ ".run") packageName, Event.instantiate className 0],
      Event.readScript PROCESS_SCRIPT, [],
      Event.runStart procId env.scriptContent,
      rest ++ [Event.loggingDrain, Event.managerDeinit, Event.finalDrain],
      by simp, rfl, rfl⟩

/-- Witness for C6 at the concrete successful invocation `envOk`. -/
theorem script_passed_verbatim_witness :
    (parseArgs envOk.args = some "docker" ∧
     envOk.data DATA_ID_KEY = some "42" ∧ envOk.scriptContent = "echo hello") ∧
    (Event.readScript PROCESS_SCRIPT ∈ (main envOk).1 ∧
     Event.runStart "42" envOk.scriptContent ∈ (main envOk).1 ∧
     occursBefore (main envOk).1 Event.isReadScript Event.isRunStart) :=
  ⟨⟨rfl, rfl, rfl⟩,
   script_passed_verbatim envOk "docker" "42" rfl rfl rfl rfl rfl rfl⟩

/-- C7: when the module argument is missing (`argparse` exits with status 2)
or names a module that cannot be imported (the `ImportError` escapes and the
interpreter exits with status 1), the process exit status is nonzero and the
executor's run routine never starts. -/
theorem bad_argument_exits_nonzero (env : Env)
    (h : parseArgs env.args = none ∨
         (env.initRaises = false ∧
          ∃ m, parseArgs env.args = some m ∧
            env.importOk (m ++ ".run") = false)) :
    exitCode (main env).2 ≠ 0 ∧ countE (main env).1 Event.isRunStart = 0 := by
  rcases h with hnone | ⟨hinit, m, hargs, himp⟩
  · have hre : run_executor env = ([Event.parseArgsCall], Outcome.exited 2) := by
      unfold run_executor
      rw [hnone]
    cases hi : env.initRaises
    · have hout : (main env).2 = Outcome.exited 2 := by
        rw [main_outcome env, sequential_outcome env hi, hre]
      have hnotok : (main env).2 ≠ Outcome.ok := by rw [hout]; simp
      have htr : (main env).1 =
          [Event.configureLogging, Event.managerInit, Event.parseArgsCall] := by
        rw [main_notok_trace env hnotok, sequential_trace env hi, hre]
      rw [hout, htr]
      exact ⟨by simp [exitCode], rfl⟩
    · have hseq : sequential env =
          ([Event.managerInit], Outcome.raised Err.initError) := by
        unfold sequential
        simp [hi]
      have hout : (main env).2 = Outcome.raised Err.initError := by
        rw [main_outcome env, hseq]
      have hnotok : (main env).2 ≠ Outcome.ok := by rw [hout]; simp
      have htr : (main env).1 = [Event.configureLogging, Event.managerInit] := by
        rw [main_notok_trace env hnotok, hseq]
      rw [hout, htr]
      exact ⟨by simp [exitCode], rfl⟩
  · have hre : run_executor env =
        ([Event.parseArgsCall, Event.importMod (m ++ ".run") packageName],
         Outcome.raised Err.importError) := by
      unfold run_executor
      simp [hargs, himp]
    have hout : (main env).2 = Outcome.raised Err.importError := by
      rw [main_outcome env, sequential_outcome env hinit, hre]
    have hnotok : (main env).2 ≠ Outcome.ok := by rw [hout]; simp
    have htr : (main env).1 =
        [Event.configureLogging, Event.managerInit, Event.parseArgsCall,
         Event.importMod (m ++ ".run") packageName] := by
      rw [main_notok_trace env hnotok, sequential_trace env hinit, hre]
    rw [hout, htr]
    exact ⟨by simp [exitCode], rfl⟩

/-- Witness for C7: invoking with no arguments exits with status 2 and the
run routine never starts. -/
theorem bad_argument_exits_nonzero_witness :
    parseArgs envNoArgs.args = none ∧
    (exitCode (main envNoArgs).2 ≠ 0 ∧
     countE (main envNoArgs).1 Event.isRunStart = 0) :=
  ⟨rfl, bad_argument_exits_nonzero envNoArgs (Or.inl rfl)⟩

/-! ## Migration 0033 (`resolwe/flow/migrations/0033_move_purged.py`)

The migration adds a `purged` boolean (default `False`) to `DataLocation`,
then runs `mark_purged_locations`, which sets a location's `purged` to
`True` exactly when some associated `Data` row has `purged=True`. -/

namespace Migration0033

/-- A `Data` row as the migration sees it: its `data_location` foreign key
and its (pre-migration) `purged` flag. -/
structure DataRow where
  locId : Nat
  purged : Bool
deriving DecidableEq, Repr

/-- A `DataLocation` row with the freshly added `purged` field. -/
structure LocationRow where
  id : Nat
  purged : Bool
deriving DecidableEq, Repr

/-- `migrations.AddField(model_name="datalocation", name="purged",
field=models.BooleanField(default=False))`: every existing location starts
with `purged = False`. -/
def addPurgedField (locIds : List Nat) : List LocationRow :=
  locIds.map fun i => { id := i, purged := false }

/-- `mark_purged_locations`: iterate over all locations; when
`data_location.data.filter(purged=True).exists()`, set `purged = True` and
save; otherwise leave the row untouched. -/
def mark_purged_locations (datas : List DataRow) (locs : List LocationRow) :
    List LocationRow :=
  locs.map fun loc =>
    if datas.any fun d => d.locId == loc.id && d.purged then
      { loc with purged := true }
    else loc

/-- The data-relevant part of the migration: add the defaulted field, then
run `mark_purged_locations`. -/
def migrate (locIds : List Nat) (datas : List DataRow) : List LocationRow :=
  mark_purged_locations datas (addPurgedField locIds)

end Migration0033

/-- C8: after the migration step, a `DataLocation` row has `purged = true`
exactly when at least one of its associated `Data` rows had `purged = true`;
a location with no purged data keeps the field's default `false`. -/
theorem mark_purged_locations_correct (locIds : List Nat)
    (datas : List Migration0033.DataRow) (loc : Migration0033.LocationRow)
    (hmem : loc ∈ Migration0033.migrate locIds datas) :
    loc.purged = true ↔ ∃ d ∈ datas, d.locId = loc.id ∧ d.purged = true := by
  unfold Migration0033.migrate Migration0033.mark_purged_locations
    Migration0033.addPurgedField at hmem
  rw [List.map_map, List.mem_map] at hmem
  obtain ⟨i, _, hloc⟩ := hmem
  by_cases hany : datas.any fun d => d.locId == i && d.purged
  · simp [Function.comp, hany] at hloc
    subst hloc
    simp only [true_iff]
    simp only [List.any_eq_true, Bool.and_eq_true, beq_iff_eq] at hany
    obtain ⟨d, hd, hdl, hdp⟩ := hany
    exact ⟨d, hd, hdl, hdp⟩
  · simp [Function.comp, hany] at hloc
    subst hloc
    simp only [Bool.false_eq_true, false_iff]
    intro ⟨d, hd, hdl, hdp⟩
    exact hany (List.any_eq_true.mpr ⟨d, hd, by simp [hdl, hdp]⟩)

/-- Witness for C8, at a concrete database with one purged and one clean
location. -/
theorem mark_purged_locations_correct_witness :
    (({ id := 1, purged := true } : Migration0033.LocationRow) ∈
      Migration0033.migrate [1, 2]
        [{ locId := 1, purged := true }, { locId := 2, purged := false }]) ∧
    (({ id := 1, purged := true } : Migration0033.LocationRow).purged = true ↔
      ∃ d ∈ [({ locId := 1, purged := true } : Migration0033.DataRow),
             { locId := 2, purged := false }],
        d.locId = 1 ∧ d.purged = true) :=
  ⟨by decide,
   mark_purged_locations_correct [1, 2]
     [{ locId := 1, purged := true }, { locId := 2, purged := false }]
     { id := 1, purged := true } (by decide)⟩

/-! ## Relation serializer (`resolwe/flow/serializers/relation.py`)

`create` and `update` both run inside `transaction.atomic()`.  The database
is modelled as lists of rows plus the foreign-key target id sets; a row
creation raises (models a database integrity error) when its foreign key
does not resolve.  `transaction.atomic` is modelled explicitly: the inner
steps thread an evolving state, and if any of them raises, the transaction
rolls the observable state back to the snapshot taken at entry and
re-raises. -/

namespace RelationSer

/-- A persisted `Relation` row. -/
structure RelationRow where
  id : Nat
  collection : Nat
  typeId : Nat
  category : Option String
  unit : Option String
deriving DecidableEq, Repr

/-- A persisted `RelationPartition` row. -/
structure PartitionRow where
  relation : Nat
  entity : Nat
  label : Option String
  position : Option Nat
deriving DecidableEq, Repr

/-- One entry of the validated `partitions` input: `entity`, with `label`
and `position` defaulting to `None` via `partition.get(..., None)`. -/
structure PartitionInput where
  entity : Nat
  label : Option String
  position : Option Nat
deriving DecidableEq, Repr

/-- Validated serializer input for a relation: the writable fields plus the
nested `partitions` list (source `relationpartition_set`). -/
structure RelationInput where
  collection : Nat
  typeId : Nat
  category : Option String
  unit : Option String
  partitions : List PartitionInput
deriving DecidableEq, Repr

/-- Database state: foreign-key target id sets and the two tables. -/
structure DB where
  entities : List Nat
  collections : List Nat
  relations : List RelationRow
  partitions : List PartitionRow
deriving DecidableEq, Repr

/-- The partition row written for input `p` under relation `relId`. -/
def toRow (relId : Nat) (p : PartitionInput) : PartitionRow :=
  { relation := relId, entity := p.entity, label := p.label,
    position := p.position }

/-- `RelationPartition.objects.create(relation=..., entity=..., label=...,
position=...)`: raises when the entity foreign key does not resolve. -/
def createPartition (relId : Nat) (p : PartitionInput) (db : DB) :
    Except Unit DB :=
  if db.entities.contains p.entity then
    Except.ok { db with partitions := db.partitions ++ [toRow relId p] }
  else
    Except.error ()

/-- `_create_partitions`: create each listed partition in input order,
stopping at the first failure. -/
def _create_partitions (relId : Nat) (ps : List PartitionInput) (db : DB) :
    Except Unit DB :=
  match ps with
  | [] => Except.ok db
  | p :: rest =>
    match createPartition relId p db with
    | Except.error e => Except.error e
    | Except.ok db' => _create_partitions relId rest db'

/-- Fresh primary key for a new relation row. -/
def nextId (db : DB) : Nat :=
  (db.relations.map (·.id)).foldr max 0 + 1

/-- `transaction.atomic()`: run the inner steps; on success keep the final
state, on an exception roll back to the entry snapshot and re-raise (the
second component is the escaped exception, if any). -/
def atomic (f : DB → Except Unit DB) (db : DB) : DB × Option Unit :=
  match f db with
  | Except.ok db' => (db', none)
  | Except.error e => (db, some e)

/-- Body of `RelationSerializer.create`: `Relation.objects.create`
(raising when the collection foreign key does not resolve) followed by
`_create_partitions`. -/
def create_body (v : RelationInput) (db : DB) : Except Unit DB :=
  if db.collections.contains v.collection then
    let rid := nextId db
    _create_partitions rid v.partitions
      { db with relations := db.relations ++
          [{ id := rid, collection := v.collection, typeId := v.typeId,
             category := v.category, unit := v.unit }] }
  else
    Except.error ()

/-- `RelationSerializer.create`: the body inside `transaction.atomic()`. -/
def create (v : RelationInput) (db : DB) : DB × Option Unit :=
  atomic (create_body v) db

/-- Body of `RelationSerializer.update`: `super().update` writes the
writable fields of the existing row (raising when the new collection foreign
key does not resolve), then every existing partition of the relation is
deleted and the listed partitions are recreated. -/
def update_body (relId : Nat) (v : RelationInput) (db : DB) :
    Except Unit DB :=
  if db.collections.contains v.collection then
    let db1 := { db with relations := db.relations.map fun (r : RelationRow) =>
      if r.id == relId then
        { r with collection := v.collection, category := v.category,
                 unit := v.unit }
      else r }
    let db2 := { db1 with partitions :=
      db1.partitions.filter fun p => !(p.relation == relId) }
    _create_partitions relId v.partitions db2
  else
    Except.error ()

/-- `RelationSerializer.update`: the body inside `transaction.atomic()`. -/
def update (relId : Nat) (v : RelationInput) (db : DB) : DB × Option Unit :=
  atomic (update_body relId v) db

/-- Every row written by `toRow relId` belongs to relation `relId`. -/
lemma filter_rows_eq (relId : Nat) (ps : List PartitionInput) :
    (List.map (toRow relId) ps).filter (fun p => p.relation == relId) =
      List.map (toRow relId) ps := by
  rw [List.filter_eq_self]
  intro a ha
  rw [List.mem_map] at ha
  obtain ⟨p, _, rfl⟩ := ha
  simp [toRow]

/-- No row written by `toRow relId` belongs to another relation. -/
lemma filter_rows_ne (relId : Nat) (ps : List PartitionInput) :
    (List.map (toRow relId) ps).filter (fun p => !(p.relation == relId)) =
      [] := by
  rw [List.filter_eq_nil_iff]
  intro a ha
  rw [List.mem_map] at ha
  obtain ⟨p, _, rfl⟩ := ha
  simp [toRow]

/-- After deleting relation `relId`'s partitions, none remain. -/
lemma filter_ne_then_eq (relId : Nat) (l : List PartitionRow) :
    (l.filter fun p => !(p.relation == relId)).filter
        (fun p => p.relation == relId) = [] := by
  simp [List.filter_filter]

/-- Deleting relation `relId`'s partitions is idempotent. -/
lemma filter_ne_idem (relId : Nat) (l : List PartitionRow) :
    (l.filter fun p => !(p.relation == relId)).filter
        (fun p => !(p.relation == relId)) =
      l.filter fun p => !(p.relation == relId) := by
  simp [List.filter_filter]

/-- A successful `_create_partitions` appends exactly the rows for the
listed inputs, in order, and touches nothing else. -/
lemma create_partitions_ok (relId : Nat) (ps : List PartitionInput)
    (db db' : DB) (h : _create_partitions relId ps db = Except.ok db') :
    db' = { db with partitions := db.partitions ++ ps.map (toRow relId) } := by
  induction ps generalizing db with
  | nil =>
    unfold _create_partitions at h
    simp at h
    rw [← h]
    simp
  | cons p rest ih =>
    unfold _create_partitions createPartition at h
    by_cases hc : p.entity ∈ db.entities
    · simp [hc] at h
      rw [ih _ h]
      simp
    · simp [hc] at h

end RelationSer

/-- C9: `RelationSerializer.create` and `.update` are atomic — each either
persists the relation together with all listed partitions (for `update`:
the partition set of the relation afterwards is exactly the listed input,
other relations' partitions untouched) or, on any failure, leaves the
database unchanged. -/
theorem relation_serializer_atomic (v : RelationSer.RelationInput)
    (relId : Nat) (db : RelationSer.DB) :
    (((RelationSer.create v db).2 = some () ∧
        (RelationSer.create v db).1 = db) ∨
     ((RelationSer.create v db).2 = none ∧ ∃ rid,
        (RelationSer.create v db).1.relations = db.relations ++
          [{ id := rid, collection := v.collection, typeId := v.typeId,
             category := v.category, unit := v.unit }] ∧
        (RelationSer.create v db).1.partitions = db.partitions ++
          v.partitions.map (RelationSer.toRow rid))) ∧
    (((RelationSer.update relId v db).2 = some () ∧
        (RelationSer.update relId v db).1 = db) ∨
     ((RelationSer.update relId v db).2 = none ∧
        ((RelationSer.update relId v db).1.partitions.filter
            fun p => p.relation == relId) =
          v.partitions.map (RelationSer.toRow relId) ∧
        ((RelationSer.update relId v db).1.partitions.filter
            fun p => !(p.relation == relId)) =
          db.partitions.filter fun p => !(p.relation == relId))) := by
  constructor
  · unfold RelationSer.create RelationSer.atomic
    cases hc : RelationSer.create_body v db with
    | error e =>
      exact Or.inl ⟨rfl, rfl⟩
    | ok dbx =>
      unfold RelationSer.create_body at hc
      by_cases hcol : v.collection ∈ db.collections
      · rw [if_pos (by simpa using hcol)] at hc
        have hh := RelationSer.create_partitions_ok _ _ _ _ hc
        refine Or.inr ⟨rfl, RelationSer.nextId db, ?_, ?_⟩ <;> rw [hh]
      · rw [if_neg (by simpa using hcol)] at hc
        simp at hc
  · unfold RelationSer.update RelationSer.atomic
    cases hu : RelationSer.update_body relId v db with
    | error e =>
      exact Or.inl ⟨rfl, rfl⟩
    | ok dbx =>
      unfold RelationSer.update_body at hu
      by_cases hcol : v.collection ∈ db.collections
      · rw [if_pos (by simpa using hcol)] at hu
        have hh := RelationSer.create_partitions_ok _ _ _ _ hu
        refine Or.inr ⟨rfl, ?_, ?_⟩ <;> rw [hh] <;>
          simp [List.filter_append, RelationSer.filter_rows_eq,
            RelationSer.filter_rows_ne, RelationSer.filter_ne_then_eq,
            RelationSer.filter_ne_idem]
      · rw [if_neg (by simpa using hcol)] at hu
        simp at hu

/-! ## Query-parameter validation (`resolwe/flow/filters.py`)

`CheckQueryParamsMixin.validate_query_params` computes the set of allowed
parameters (the filterset's declared filter names plus the always-allowed
arguments) and adds a form error exactly when some used query parameter
falls outside it. -/

namespace Filters

/-- `CheckQueryParamsMixin.get_always_allowed_arguments`. -/
def get_always_allowed_arguments : List String :=
  ["fields", "format", "limit", "offset", "ordering"]

/-- `RelationFilter.get_always_allowed_arguments`: the base arguments plus
`entity`, `label` and `position`. -/
def relation_always_allowed_arguments : List String :=
  get_always_allowed_arguments ++ ["entity", "label", "position"]

/-- `validate_query_params`: returns whether an error is added, i.e. whether
`set(query_params) - (filters ∪ always_allowed)` is nonempty. -/
def validate_query_params (filterNames alwaysAllowed queryParams :
    List String) : Bool :=
  queryParams.any fun p =>
    !(filterNames.contains p || alwaysAllowed.contains p)

end Filters

/-- C10: a query-parameter error is added if and only if the used parameter
names are not all contained in the union of the declared filter names and
the always-allowed arguments; and `RelationFilter` extends the base
always-allowed arguments with exactly `entity`, `label`, `position`. -/
theorem validate_query_params_iff (filterNames alwaysAllowed queryParams :
    List String) :
    (Filters.validate_query_params filterNames alwaysAllowed queryParams =
        true ↔
      ¬ ∀ p ∈ queryParams, p ∈ filterNames ∨ p ∈ alwaysAllowed) ∧
    Filters.relation_always_allowed_arguments =
      ["fields", "format", "limit", "offset", "ordering",
       "entity", "label", "position"] := by
  constructor
  · unfold Filters.validate_query_params
    simp
  · rfl

end Resolwe
